import Mathlib

/-!
Shallow embedding of the jarbas chat-bot core (Go, package `chat`):
the quoted-word tokenizer (`ScanQuotedWords`), the argument binder
(`parseArguments`), the command router / dispatcher (`handleMessage`,
`handleError`), the send/acknowledgement correlator (`Send` plus the
`AckMessage` branch of `Serve`), and the event bus (`emitEvent`).

Go strings are byte sequences; the tokenizer walks them rune by rune
(`utf8.DecodeRune`) and builds tokens as bytes.  We model the *input* of the
tokenizer as `List Char` (one entry per rune, assuming valid UTF-8, which is
what the messaging platform delivers) and every *produced* string (tokens,
argument names, argument values, error texts) as `List Nat` — its bytes.
Offsets/advances are counted in runes instead of bytes; the scanner only ever
uses an advance to drop the consumed part of the input, so the behaviour is
unchanged.
-/

namespace Jarbas

/-- Bytes of an ASCII Lean string literal (used to write down names, values
and the exact error texts from the Go sources). -/
def ascii (s : String) : List Nat := s.data.map Char.toNat

/-- Rune list of a Lean string literal. -/
def chars (s : String) : List Char := s.data

/-- `byte(r)` in Go: truncation of a rune to its low 8 bits.  This is the
conversion `token = append(token, byte(r))` performs in `ScanQuotedWords`. -/
def byteOfRune (c : Char) : Nat := c.toNat % 256

/-- `marker = byte('\x05')` in the Go source. -/
def markerByte : Nat := 5

/-- The marker rune, as it would be decoded from input data. -/
def markerChar : Char := Char.ofNat 5

/-- `isSeparator(r)`: `r == '='`. -/
def isSeparator (c : Char) : Bool := c = '='

/-- `isQuote(r)`: `r` is an apostrophe (0x27) or a double quote (0x22). -/
def isQuote (c : Char) : Bool := c.toNat = 39 || c.toNat = 34

/-- `isSpace(r)` from the Go source (a verbatim copy of `unicode.IsSpace`'s
character set). -/
def isSpace (c : Char) : Bool :=
  if c.toNat ≤ 0xFF then
    c = ' ' || c = '\t' || c = '\n' || c.toNat = 0x0B || c.toNat = 0x0C ||
      c = '\r' || c.toNat = 0x85 || c.toNat = 0xA0
  else if 0x2000 ≤ c.toNat && c.toNat ≤ 0x200A then true
  else c.toNat = 0x1680 || c.toNat = 0x2028 || c.toNat = 0x2029 ||
    c.toNat = 0x202F || c.toNat = 0x205F || c.toNat = 0x3000

/-- Result of one `ScanQuotedWords(data, atEOF)` call: a split error, a token
together with the advance (`return i + width, token, nil` /
`return len(data), token, nil`), or a request for more data
(`return start, nil, nil`). -/
inductive ScanResult where
  | fail (msg : List Nat)
  | token (advance : Nat) (tok : List Nat)
  | more (advance : Nat)
  deriving DecidableEq, Repr

/-- The main rune loop of `ScanQuotedWords` (the `for width, i := 0, start`
loop plus the end-of-data handling).  `start`/`dataLen` are the values the
surrounding function computed, `i` is the absolute position of the head of
the remaining input, `tok`/`seenSep`/`quotes` are the loop state (`token`,
`seenSeparator`, `quotes`). -/
def scanStep (atEOF : Bool) (start dataLen : Nat) :
    List Char → Nat → List Nat → Bool → List Char → ScanResult
  | [], _, tok, _, quotes =>
    if atEOF && decide (dataLen > start) then
      if quotes.length > 0 then
        ScanResult.fail (ascii "double separator")
      else
        ScanResult.token dataLen tok
    else
      ScanResult.more start
  | c :: rest, i, tok, seenSep, quotes =>
    if c = markerChar then
      ScanResult.fail (ascii "contains split marker")
    else if isQuote c then
      match quotes with
      | q :: qs =>
        if q = c then scanStep atEOF start dataLen rest (i + 1) tok seenSep qs
        else scanStep atEOF start dataLen rest (i + 1) tok seenSep (c :: q :: qs)
      | [] => scanStep atEOF start dataLen rest (i + 1) tok seenSep [c]
    else if quotes.length > 0 then
      scanStep atEOF start dataLen rest (i + 1) (tok ++ [byteOfRune c]) seenSep quotes
    else if isSeparator c then
      if seenSep then ScanResult.fail (ascii "double separator")
      else scanStep atEOF start dataLen rest (i + 1) (tok ++ [markerByte]) true quotes
    else if isSpace c then
      ScanResult.token (i + 1) tok
    else
      scanStep atEOF start dataLen rest (i + 1) (tok ++ [byteOfRune c]) seenSep quotes

/-- `ScanQuotedWords(data, atEOF)`: skip leading whitespace, then run the
rune loop starting from `start` with empty token, no separator seen and an
empty quote stack. -/
def scanQuotedWords (data : List Char) (atEOF : Bool) : ScanResult :=
  let start := (data.takeWhile isSpace).length
  scanStep atEOF start data.length (data.drop start) start [] false []

/-- Driving `ScanQuotedWords` the way `bufio.Scanner` does over a
`strings.Reader`: the whole string is available, so after at most one
"more data" round every call is an end-of-input call — we model it as always
calling with `atEOF = true`, which yields the same token/error sequence.
Returns the tokens produced before the scan stopped together with
`scanner.Err()` (`none` when the input was exhausted cleanly).  Each
successful round consumes at least one rune, so `data.length + 1` fuel can
never run out. -/
def tokenizeFuel : Nat → List Char → List (List Nat) × Option (List Nat)
  | 0, _ => ([], some (ascii "out of fuel"))
  | fuel + 1, data =>
    match scanQuotedWords data true with
    | ScanResult.fail e => ([], some e)
    | ScanResult.more _ => ([], none)
    | ScanResult.token adv tok =>
      let rest := tokenizeFuel fuel (data.drop adv)
      (tok :: rest.1, rest.2)

/-- All tokens of a raw argument string, plus the terminal scanner error. -/
def tokenize (data : List Char) : List (List Nat) × Option (List Nat) :=
  tokenizeFuel (data.length + 1) data

/-- `HasMarker(s)`: the token contains the sentinel byte, i.e. it is a
key/value token. -/
def hasMarker (t : List Nat) : Bool := t.contains markerByte

/-- `SplitMarker(s)`: split at the first sentinel byte (`strings.SplitN` with
limit 2).  Only ever called on tokens for which `hasMarker` holds. -/
def splitMarker : List Nat → List Nat × List Nat
  | [] => ([], [])
  | b :: rest =>
    if b = markerByte then ([], rest)
    else
      let p := splitMarker rest
      (b :: p.1, p.2)

/-- `strings.ToLower` restricted to its ASCII action (the only case the
binder's byte-level comparison can exercise with ASCII argument names). -/
def toLowerByte (b : Nat) : Nat := if 65 ≤ b && b ≤ 90 then b + 32 else b

/-- Lowercasing of a byte string, as `strings.ToLower(argName)`. -/
def toLowerBytes (s : List Nat) : List Nat := s.map toLowerByte

/-- `chatArg`: one argument spec (`name`, `required`, `defValue`,
`description`), created by `WithRequiredArg` / `WithOptionalArg`. -/
structure chatArg where
  name : List Nat
  required : Bool := false
  defValue : List Nat := []
  description : List Nat := []
  deriving DecidableEq, Repr

/-- `msg.Args` (`ChatArgs`, a Go `map[string]string`), kept as an association
list in insertion order; `mapInsert` is Go map assignment (overwrite an
existing key, otherwise append). -/
abbrev Args := List (List Nat × List Nat)

def mapInsert (args : Args) (k v : List Nat) : Args :=
  if args.any (fun p => p.1 = k) then
    args.map (fun p => if p.1 = k then (k, v) else p)
  else
    args ++ [(k, v)]

def argsLookup (args : Args) (k : List Nat) : Option (List Nat) :=
  (args.find? (fun p => p.1 = k)).map Prod.snd

/-- The inner `for i := 0; i < len(argStack); i++` loop of `parseArguments`:
bind `argValue` under the first remaining spec whose `name` equals
`strings.ToLower(argName)` and remove that spec; if no spec matches, the
token is silently dropped (stack and args unchanged). -/
def bindNamed (argName argValue : List Nat) (args : Args) :
    List chatArg → List chatArg × Args
  | [] => ([], args)
  | a :: rest =>
    if toLowerBytes argName = a.name then
      (rest, mapInsert args a.name argValue)
    else
      let p := bindNamed argName argValue args rest
      (a :: p.1, p.2)

/-- The `for scanner.Scan()` loop of `parseArguments` over the already
scanned tokens.  State: remaining `argStack`, the `canNamed` flag, the
`msg.Args` built so far.  Result `none` models the Go runtime panic raised by
`argStack[0]` on an empty slice (positional overflow); otherwise the final
stack, args, and the error returned early from inside the loop (the
`"mixed argument mode"` case). -/
def bindLoop : List chatArg → Bool → Args → List (List Nat) →
    Option (List chatArg × Args × Option (List Nat))
  | stack, _, args, [] => some (stack, args, none)
  | stack, canNamed, args, t :: ts =>
    if hasMarker t then
      if canNamed then
        let p := splitMarker t
        let q := bindNamed p.1 p.2 args stack
        bindLoop q.1 canNamed q.2 ts
      else
        some (stack, args, some (ascii "mixed argument mode"))
    else
      match stack with
      | [] => none
      | a :: rest => bindLoop rest false (mapInsert args a.name t) ts

/-- The trailing "apply optionals & fail defaults" loop of `parseArguments`:
specs still on the stack get their default bound unless `required`, in which
case the whole binding fails with `"missed required arg" + name`. -/
def applyDefaults : List chatArg → Args → Args × Option (List Nat)
  | [], args => (args, none)
  | a :: rest, args =>
    if a.required then
      (args, some (ascii "missed required arg" ++ a.name))
    else
      applyDefaults rest (mapInsert args a.name a.defValue)

/-- `parseArguments(specArgs, msg)`: tokenize `msg.RawArgs`, run the binding
loop, then check `scanner.Err()`, then apply defaults.  The result carries
the final contents of `msg.Args` (the Go code mutates the map in place, so a
failed binding still leaves the partially bound arguments behind) plus the
returned error; `none` is the positional-overflow panic. -/
def parseArguments (specArgs : List chatArg) (rawArgs : List Char) :
    Option (Args × Option (List Nat)) :=
  let scanned := tokenize rawArgs
  match bindLoop specArgs true [] scanned.1 with
  | none => none
  | some (_stack, args, some e) => some (args, some e)
  | some (stack, args, none) =>
    match scanned.2 with
    | some e => some (args, some e)
    | none => some (applyDefaults stack args)

/-- `chatAction`: a registered Action (handler plus its arg specs; the
`private`/`mention` flags are irrelevant to the dispatch path modelled here).
Handlers are identified by a number; their behaviour is supplied as an oracle
`run` mapping handler id and bound args to the error `OnChatMessage`
returns. -/
structure chatAction where
  handler : Nat
  args : List chatArg := []
  deriving DecidableEq, Repr

/-- A handler outcome: `none` = success, `authNeeded` = the sentinel
`ErrUserAuthNeeded`, `other` = any other error. -/
inductive GoErr where
  | authNeeded
  | other (msg : List Nat)
  deriving DecidableEq, Repr

/-- Observable steps of a dispatch: a handler invocation with the bound
arguments, or a private reply sent to the user. -/
inductive DispatchStep where
  | invoke (handler : Nat) (args : Args)
  | replyPrivately (text : List Nat)
  deriving DecidableEq, Repr

/-- `handleError(msg, err)`: nothing on success, a canned private prompt for
the auth sentinel, otherwise a generic private notice plus the error text. -/
def handleError : Option GoErr → List DispatchStep
  | none => []
  | some GoErr.authNeeded => [DispatchStep.replyPrivately (ascii "Auth needed")]
  | some (GoErr.other e) =>
    [DispatchStep.replyPrivately (ascii "Your last command emmited an error"),
     DispatchStep.replyPrivately e]

/-- The per-Action preamble of the dispatch loop: a fresh empty `msg.Args`,
then — only when the Action has specs — a `parseArguments` call whose
returned error is DISCARDED (`parseArguments(ca.args, msg)` is a bare
statement in `handleMessage`); the handler sees whatever ended up in
`msg.Args`.  `none` is the binding panic. -/
def boundArgs (ca : chatAction) (raw : List Char) : Option Args :=
  if ca.args.length > 0 then
    match parseArguments ca.args raw with
    | none => none
    | some (args, _) => some args
  else
    some []

/-- The `for _, ca := range handlers` loop of `handleMessage`: per Action,
bind the arguments (error discarded), invoke the handler, then run
`handleError` on the handler's result.  `none` models a binding panic
(which crashes the per-message goroutine). -/
def dispatchActions (run : Nat → Args → Option GoErr) (raw : List Char) :
    List chatAction → Option (List DispatchStep)
  | [] => some []
  | ca :: rest =>
    match boundArgs ca raw with
    | none => none
    | some args =>
      (dispatchActions run raw rest).map
        (fun tr =>
          (DispatchStep.invoke ca.handler args :: handleError (run ca.handler args)) ++ tr)

/-- The pattern-matching loop of `handleMessage`
(`for p, ch := range cb.chatHandlers`).  Go map iteration order is
unspecified, so the table is supplied here already in its iteration order;
the loop keeps the first entry whose pattern is a prefix of the text and
computes `strings.TrimSpace(strings.TrimPrefix(ev.Text, p))` as the raw
argument string. -/
def stripPat (text pat : List Char) : List Char :=
  if pat.isPrefixOf text then text.drop pat.length else text

def trimLeftSpace (s : List Char) : List Char := s.dropWhile isSpace

/-- `strings.TrimSpace`: drop Unicode whitespace from both ends. -/
def trimSpace (s : List Char) : List Char :=
  ((s.dropWhile isSpace).reverse.dropWhile isSpace).reverse

def matchText (table : List (List Char × List chatAction)) (text : List Char) :
    Option (List Char × List chatAction × List Char) :=
  match table with
  | [] => none
  | (p, ch) :: rest =>
    if p.isPrefixOf text then some (p, ch, trimSpace (stripPat text p))
    else matchText rest text

/-- The default-handler branch of `handleMessage` (no argument binding, empty
`msg.Args`). -/
def defaultDispatch (defaultH : Option chatAction)
    (run : Nat → Args → Option GoErr) : Option (List DispatchStep) :=
  match defaultH with
  | none => some []
  | some ca =>
    some (DispatchStep.invoke ca.handler [] :: handleError (run ca.handler []))

/-- `handleMessage` for a text event: match against the table (in iteration
order), fall back to the default handler when nothing matched, otherwise
dispatch every Action registered under the matched pattern. -/
def handleMessageTrace (table : List (List Char × List chatAction))
    (defaultH : Option chatAction) (run : Nat → Args → Option GoErr)
    (text : List Char) : Option (List DispatchStep) :=
  match matchText table text with
  | some (_, ch, raw) =>
    if ch.length = 0 then defaultDispatch defaultH run
    else dispatchActions run raw ch
  | none => defaultDispatch defaultH run

section Correlator

variable {α : Type}

/-- `cb.outgoingIDs` (a `sync.Map` from outgoing message id to the pending
`*ChatReply`), as an association list. -/
abbrev Registry (α : Type) := List (Nat × α)

def mapLoad (reg : Registry α) (id : Nat) : Option α :=
  (reg.find? (fun p => p.1 = id)).map Prod.snd

def mapStore (reg : Registry α) (id : Nat) (v : α) : Registry α :=
  if reg.any (fun p => p.1 = id) then
    reg.map (fun p => if p.1 = id then (id, v) else p)
  else
    reg ++ [(id, v)]

def mapDelete (reg : Registry α) (id : Nat) : Registry α :=
  reg.filter (fun p => !(p.1 = id))

/-- The `*slack.AckMessage` branch of `Serve`: look the `ReplyTo` id up in
the registry; unknown ids are logged and skipped; otherwise the entry is
deleted and `bindCallback` resolves the pending send with the ack's
timestamp (second component: the resolved `(pending, timestamp)`). -/
def serveAck (reg : Registry α) (replyTo : Nat) (ts : List Char) :
    Registry α × Option (α × List Char) :=
  match mapLoad reg replyTo with
  | none => (reg, none)
  | some cr => (mapDelete reg replyTo, some (cr, ts))

/-- The `select` at the end of `Send`: a resolved completion signal returns
the acknowledged timestamp (`cr.bindErr` is never set, so success); the
`time.After(ackTimeout)` branch returns the timeout error — and touches
nothing else, in particular not the registry. -/
def sendOutcome (resolvedTs : Option (List Char)) : Except (List Nat) (List Char) :=
  match resolvedTs with
  | some ts => Except.ok ts
  | none => Except.error (ascii "could not confirm msg was sent")

end Correlator

section EventBus

variable {η : Type}

/-- `emitEvent`: invoke the subscribed handlers in order; `return` at the
first handler whose `OnChatEvent` errors.  The result is the list of
handlers that were actually invoked; the function returns nothing else — the
error is dropped on the floor. -/
def emitEvent (run : η → Option GoErr) : List η → List η
  | [] => []
  | h :: rest =>
    match run h with
    | none => h :: emitEvent run rest
    | some _ => [h]

end EventBus

/-- The typed events `Serve` reads off `slackRTM.IncomingEvents`. -/
inductive SlackEvent where
  | hello
  | connected
  | disconnected
  | message (subType : List Char)
  | presenceChange
  | latencyReport
  | rtmError
  | invalidAuth
  | reactionAdded
  | reactionRemoved
  | ackMessage
  | unknown
  deriving DecidableEq, Repr

/-- How `Serve`'s switch hands an event on: no hand-off at all, a spawned
goroutine (`go cb.emitEvent(...)` / `go cb.handleMessage(ev)`), work done
inline on the reader task, or a `return` from the serve loop. -/
inductive FanoutMode where
  | ignored
  | spawnedTask
  | syncOnReader
  | fatalExit
  deriving DecidableEq, Repr

/-- Transcription of the dispatch decision in `Serve`'s `switch` (part_001,
lines 193-281): which events get their own goroutine and which are handled
on the reader. -/
def serveFanout : SlackEvent → FanoutMode
  | SlackEvent.hello => FanoutMode.ignored
  | SlackEvent.connected => FanoutMode.spawnedTask
  | SlackEvent.disconnected => FanoutMode.spawnedTask
  | SlackEvent.message st =>
    if st = chars "message_replied" then FanoutMode.ignored
    else FanoutMode.spawnedTask
  | SlackEvent.presenceChange => FanoutMode.spawnedTask
  | SlackEvent.latencyReport => FanoutMode.syncOnReader
  | SlackEvent.rtmError => FanoutMode.syncOnReader
  | SlackEvent.invalidAuth => FanoutMode.fatalExit
  | SlackEvent.reactionAdded => FanoutMode.spawnedTask
  | SlackEvent.reactionRemoved => FanoutMode.spawnedTask
  | SlackEvent.ackMessage => FanoutMode.syncOnReader
  | SlackEvent.unknown => FanoutMode.ignored

/-! ## Theorems about the claims -/

/-- C5: binding the raw argument string `name="John Doe" active=true 42`
against the specs `[positional "count" required, named "active" optional
default "false", named "name" optional default ""]` succeeds and produces
exactly the mapping with name ↦ "John Doe", active ↦ "true",
count ↦ "42". -/
theorem c5_example_binding :
    parseArguments
      [⟨ascii "count", true, [], []⟩,
       ⟨ascii "active", false, ascii "false", []⟩,
       ⟨ascii "name", false, [], []⟩]
      (chars "name=\"John Doe\" active=true 42") =
    some ([(ascii "name", ascii "John Doe"),
           (ascii "active", ascii "true"),
           (ascii "count", ascii "42")], none) := by decide

/-- C1: the claim says a positional token arriving after all remaining specs
have been consumed yields a BindingError and in particular no crash.  The
code instead evaluates `argStack[0]` on an empty slice, a runtime panic,
modelled by the `none` result: with the single spec `count` and the raw
arguments `"1 2"`, the first token pops the only spec and the second token
hits the empty stack. -/
theorem c1_overflow_panic :
    parseArguments [⟨ascii "count", true, [], []⟩] (chars "1 2") = none ∧
    bindLoop [] false [(ascii "count", ascii "1")] [ascii "2"] = none := by
  decide

/-- C6 counterexample: the claim says a key/value token after a positional
token is still accepted and bound.  With specs `a`, `b` (both optional) and
raw arguments `"1 b=2"`, the code instead fails with the BindingError
`"mixed argument mode"` and leaves `b` unbound. -/
theorem c6_counterexample :
    parseArguments [⟨ascii "a", false, [], []⟩, ⟨ascii "b", false, [], []⟩]
      (chars "1 b=2") =
    some ([(ascii "a", ascii "1")], some (ascii "mixed argument mode")) := by
  decide

/-- C6 amended: once any positional token has been consumed (`canNamed` has
dropped to `false`), the very next key/value token makes the binding loop
fail with the `"mixed argument mode"` BindingError — the binder rejects
mixing in that order. -/
theorem c6_amended (a : chatArg) (stack : List chatArg) (args : Args)
    (tpos tkv : List Nat) (ts : List (List Nat))
    (hpos : hasMarker tpos = false) (hkv : hasMarker tkv = true) :
    bindLoop (a :: stack) true args (tpos :: tkv :: ts) =
      some (stack, mapInsert args a.name tpos, some (ascii "mixed argument mode")) := by
  simp [bindLoop, hpos, hkv]

/-- Witness for `c6_amended` at specs `a`, `b`, tokens `"1"` and
`"b=2"` (bytes `[98, 5, 50]`). -/
theorem c6_amended_witness :
    bindLoop [⟨ascii "a", false, [], []⟩, ⟨ascii "b", false, [], []⟩] true []
        [ascii "1", [98, 5, 50]] =
      some ([⟨ascii "b", false, [], []⟩],
        mapInsert [] (ascii "a") (ascii "1"),
        some (ascii "mixed argument mode")) :=
  c6_amended _ _ _ _ _ _ (by decide) (by decide)

/-- C7 counterexample: the claim says a key matching a remaining spec's name
up to ASCII case is bound regardless of which side carries the uppercase
letters.  With the spec named `"Count"` and the token `Count=5` the key
equals the spec name outright, yet `strings.ToLower` is applied to the key
only, so `"count" ≠ "Count"`: nothing is bound, the spec stays on the stack,
and the whole binding fails with the missing-required-argument error. -/
theorem c7_counterexample :
    bindNamed (ascii "Count") (ascii "5") [] [⟨ascii "Count", true, [], []⟩] =
      ([⟨ascii "Count", true, [], []⟩], []) ∧
    parseArguments [⟨ascii "Count", true, [], []⟩] (chars "Count=5") =
      some ([], some (ascii "missed required arg" ++ ascii "Count")) := by
  decide

/-- C7 amended: the binder lowercases only the key and compares the result
verbatim with the spec names: the value is bound (and the spec removed) at
the first remaining spec whose name equals `toLowerBytes key` exactly, so
case-insensitivity holds only when the registered spec name is itself
lowercase. -/
theorem c7_amended (pre post : List chatArg) (a : chatArg) (n v : List Nat)
    (args : Args)
    (hpre : ∀ b ∈ pre, b.name ≠ toLowerBytes n)
    (ha : a.name = toLowerBytes n) :
    bindNamed n v args (pre ++ a :: post) = (pre ++ post, mapInsert args a.name v) := by
  induction pre with
  | nil => simp [bindNamed, ha]
  | cons b rest ih =>
    have hb : ¬(toLowerBytes n = b.name) := fun h => hpre b (by simp) h.symm
    have ih2 := ih (fun x hx => hpre x (by simp [hx]))
    simp [bindNamed, hb, ih2]

/-- Witness for `c7_amended`: key `"Active"` binds at the spec named
`"active"`. -/
theorem c7_amended_witness :
    bindNamed (ascii "Active") (ascii "1") []
        ([] ++ (⟨ascii "active", false, [], []⟩ : chatArg) :: []) =
      ([] ++ [], mapInsert [] (ascii "active") (ascii "1")) :=
  c7_amended [] [] ⟨ascii "active", false, [], []⟩ (ascii "Active") (ascii "1") []
    (by simp) (by decide)

/-- C9 counterexample: the claim says connection, presence and reaction
events are fanned out synchronously on the reader task.  `Serve` instead
hands each of them to `go cb.emitEvent(...)` — a freshly spawned
goroutine. -/
theorem c9_counterexample :
    serveFanout SlackEvent.connected = FanoutMode.spawnedTask ∧
    serveFanout SlackEvent.presenceChange = FanoutMode.spawnedTask ∧
    serveFanout SlackEvent.reactionAdded = FanoutMode.spawnedTask ∧
    FanoutMode.spawnedTask ≠ FanoutMode.syncOnReader := by decide

/-- C9 amended: connection, presence and reaction events are each fanned out
on their own spawned concurrent unit, exactly like message events; only the
acknowledgement correlation (and the trivial log-only events) runs
synchronously on the task reading the platform event stream. -/
theorem c9_amended :
    serveFanout SlackEvent.connected = FanoutMode.spawnedTask ∧
    serveFanout SlackEvent.disconnected = FanoutMode.spawnedTask ∧
    serveFanout SlackEvent.presenceChange = FanoutMode.spawnedTask ∧
    serveFanout SlackEvent.reactionAdded = FanoutMode.spawnedTask ∧
    serveFanout SlackEvent.reactionRemoved = FanoutMode.spawnedTask ∧
    serveFanout (SlackEvent.message []) = FanoutMode.spawnedTask ∧
    serveFanout SlackEvent.ackMessage = FanoutMode.syncOnReader := by decide

/-- C2 counterexample: action registered under `"cmd"` with the required
spec `count`; the inbound text `"cmd"` leaves no tokens, so binding fails
with the missing-required-argument BindingError — yet the trace shows the
handler is invoked anyway and no private message about the failure is sent
(the handler itself succeeds here, so any reply would have had to come from
the binding failure). -/
theorem c2_counterexample :
    parseArguments [⟨ascii "count", true, [], []⟩] (chars "") =
      some ([], some (ascii "missed required arg" ++ ascii "count")) ∧
    handleMessageTrace [(chars "cmd", [⟨0, [⟨ascii "count", true, [], []⟩]⟩])]
      none (fun _ _ => none) (chars "cmd") =
      some [DispatchStep.invoke 0 []] := by decide

/-- C2 amended: `handleMessage` discards the binder's error: whenever the
dispatch loop completes (no binding panic) under handlers that themselves
succeed, every matched Action's handler is invoked — with whatever arguments
the (possibly failed) binding left in `msg.Args` — and the trace contains
only invocations, never a private message about a ParseError or
BindingError; sibling Actions are all dispatched. -/
theorem c2_amended (actions : List chatAction) (raw : List Char)
    (run : Nat → Args → Option GoErr) (tr : List DispatchStep)
    (hrun : ∀ h a, run h a = none)
    (h : dispatchActions run raw actions = some tr) :
    (∀ ca ∈ actions, ∃ args, DispatchStep.invoke ca.handler args ∈ tr) ∧
    ∀ s ∈ tr, ∃ hd args, s = DispatchStep.invoke hd args := by
  induction actions generalizing tr with
  | nil =>
    simp [dispatchActions] at h
    subst h
    simp
  | cons ca rest ih =>
    simp only [dispatchActions] at h
    cases hb : boundArgs ca raw with
    | none => rw [hb] at h; simp at h
    | some args =>
      rw [hb] at h
      cases hrest : dispatchActions run raw rest with
      | none => rw [hrest] at h; simp at h
      | some tr2 =>
        rw [hrest] at h
        simp only [Option.map_some', Option.some.injEq, hrun, handleError,
          List.singleton_append, List.cons_append, List.nil_append] at h
        obtain ⟨ih1, ih2⟩ := ih tr2 hrest
        subst h
        constructor
        · intro ca2 hca2
          rcases List.mem_cons.mp hca2 with hca2 | hca2
          · exact ⟨args, by simp [hca2]⟩
          · obtain ⟨a2, ha2⟩ := ih1 ca2 hca2
            exact ⟨a2, by simp [ha2]⟩
        · intro s hs
          rcases List.mem_cons.mp hs with hs2 | hs2
          · exact ⟨ca.handler, args, hs2⟩
          · exact ih2 s hs2

/-- Witness for `c2_amended` at the concrete dispatch of
`c2_counterexample`'s input: binding fails, yet the handler is invoked and
the trace holds invocations only. -/
theorem c2_amended_witness :
    (∀ ca ∈ [(⟨0, [⟨ascii "count", true, [], []⟩]⟩ : chatAction)],
      ∃ args, DispatchStep.invoke ca.handler args ∈ [DispatchStep.invoke 0 []]) ∧
    ∀ s ∈ [DispatchStep.invoke 0 []], ∃ hd args, s = DispatchStep.invoke hd args :=
  c2_amended [⟨0, [⟨ascii "count", true, [], []⟩]⟩] (chars "") (fun _ _ => none)
    [DispatchStep.invoke 0 []] (fun _ _ => rfl) (by decide)

/-- C8 counterexample: with the single table entry `"greet"` and the text
`"greet Alice "`, the code's remainder is `"Alice"`, while the claim's
remainder (pattern stripped, only leading whitespace removed, trailing
whitespace preserved) would be `"Alice "`: `strings.TrimSpace` trims both
ends. -/
theorem c8_counterexample :
    matchText [(chars "greet", [⟨0, []⟩])] (chars "greet Alice ") =
      some (chars "greet", [(⟨0, []⟩ : chatAction)], chars "Alice") ∧
    trimLeftSpace (stripPat (chars "greet Alice ") (chars "greet")) =
      chars "Alice " ∧
    chars "Alice" ≠ chars "Alice " := by decide

/-- C8 amended: matching returns the first entry of the command table — in
the table's (unspecified Go-map) iteration order, which is the order the
table is supplied in here — whose pattern is a prefix of the text, together
with every Action registered under that pattern, and the remainder is the
text with the pattern stripped and whitespace trimmed from BOTH ends. -/
theorem c8_amended (table : List (List Char × List chatAction)) (text : List Char) :
    matchText table text =
      (table.find? (fun e => e.1.isPrefixOf text)).map
        (fun e => (e.1, e.2, trimSpace (stripPat text e.1))) := by
  induction table with
  | nil => rfl
  | cons e rest ih =>
    obtain ⟨p, ch⟩ := e
    cases hp : p.isPrefixOf text <;> simp [matchText, List.find?_cons, hp, ih]

theorem mapLoad_mapStore_self {α : Type} (reg : Registry α) (id : Nat) (v : α) :
    mapLoad (mapStore reg id v) id = some v := by
  induction reg with
  | nil => simp [mapLoad, mapStore]
  | cons p rest ih =>
    by_cases hp : p.1 = id
    · simp [mapLoad, mapStore, List.any_cons, hp]
    · have hstep : mapStore (p :: rest) id v = p :: mapStore rest id v := by
        cases hany : rest.any (fun q => q.1 = id) with
        | true => simp [mapStore, List.any_cons, hp, hany]
        | false => simp [mapStore, List.any_cons, hp, hany]
      rw [hstep]
      simpa [mapLoad, List.find?_cons, hp] using ih

theorem mapLoad_mapDelete_self {α : Type} (reg : Registry α) (id : Nat) :
    mapLoad (mapDelete reg id) id = none := by
  induction reg with
  | nil => rfl
  | cons p rest ih =>
    by_cases hp : p.1 = id <;>
      simp_all [mapDelete, mapLoad, List.filter_cons, hp]

/-- C3: after `Send` stores the PendingSend under its correlation id, (i) an
acknowledgement carrying that id resolves the pending entry with the ack's
timestamp, removes it from the registry, and the blocked caller returns
success with that timestamp; (ii) on the timeout path the caller returns the
timeout error while the registry — untouched by that path — still holds the
PendingSend entry. -/
theorem c3_correlator {α : Type} (reg : Registry α) (id : Nat) (cr : α)
    (ts : List Char) :
    (serveAck (mapStore reg id cr) id ts).2 = some (cr, ts) ∧
    sendOutcome ((serveAck (mapStore reg id cr) id ts).2.map Prod.snd) =
      Except.ok ts ∧
    mapLoad (serveAck (mapStore reg id cr) id ts).1 id = none ∧
    sendOutcome none = Except.error (ascii "could not confirm msg was sent") ∧
    mapLoad (mapStore reg id cr) id = some cr := by
  have h1 := mapLoad_mapStore_self reg id cr
  refine ⟨?_, ?_, ?_, rfl, h1⟩
  · simp [serveAck, h1]
  · simp [serveAck, h1, sendOutcome]
  · simp [serveAck, h1, mapLoad_mapDelete_self]

/-- C4: `emitEvent` invokes the subscribed handlers in registration order and
stops at the first handler that errors: with error-free handlers `pre`, a
failing handler `f` and trailing handlers `post`, exactly `pre ++ [f]` get
invoked — nothing after `f` — and the function's result carries no error at
all (the error is discarded). -/
theorem c4_event_bus {η : Type} (run : η → Option GoErr) (pre : List η)
    (f : η) (post : List η) (e : GoErr)
    (hpre : ∀ h ∈ pre, run h = none) (hf : run f = some e) :
    emitEvent run (pre ++ f :: post) = pre ++ [f] := by
  induction pre with
  | nil => simp [emitEvent, hf]
  | cons h rest ih =>
    simp [emitEvent, hpre h (by simp),
      ih (fun x hx => hpre x (by simp [hx]))]

/-- Witness for `c4_event_bus`: three subscribers to one category, the
second errors — the third is not invoked. -/
theorem c4_event_bus_witness :
    emitEvent (fun h => if h = 1 then some (GoErr.other []) else none)
        ([0] ++ 1 :: [2]) = [0] ++ [1] :=
  c4_event_bus (fun h => if h = 1 then some (GoErr.other []) else none)
    [0] 1 [2] (GoErr.other []) (by decide) (by decide)

theorem scanStep_plain (dataLen : Nat) (data : List Char) (i : Nat)
    (tok : List Nat) (seenSep : Bool)
    (hplain : ∀ c ∈ data, c ≠ markerChar ∧ isQuote c = false ∧
      isSeparator c = false ∧ isSpace c = false)
    (hlen : dataLen > 0) :
    scanStep true 0 dataLen data i tok seenSep [] =
      ScanResult.token dataLen (tok ++ data.map byteOfRune) := by
  induction data generalizing i tok with
  | nil => simp [scanStep, hlen]
  | cons c rest ih =>
    obtain ⟨h1, h2, h3, h4⟩ := hplain c (by simp)
    have ih2 := ih (i + 1) (tok ++ [byteOfRune c])
      (fun x hx => hplain x (by simp [hx]))
    simp [scanStep, h1, h2, h3, h4, ih2]

/-- C10: on an input whose runes are all ordinary token content (no
whitespace, quotes, separator or sentinel), the tokenizer returns the whole
input as one token whose bytes are the runes truncated to their low 8 bits
(`byte(r)`); the token bytes coincide with the rune code points exactly when
every rune fits in one byte, so content above U+00FF is truncated. -/
theorem c10_byte_truncation (data : List Char)
    (hplain : ∀ c ∈ data, c ≠ markerChar ∧ isQuote c = false ∧
      isSeparator c = false ∧ isSpace c = false)
    (hne : data ≠ []) :
    scanQuotedWords data true =
      ScanResult.token data.length (data.map byteOfRune) ∧
    (data.map byteOfRune = data.map Char.toNat ↔
      ∀ c ∈ data, c.toNat < 256) := by
  constructor
  · obtain ⟨c, rest, rfl⟩ := List.exists_cons_of_ne_nil hne
    have h4 := (hplain c (by simp)).2.2.2
    have hstart : ((c :: rest).takeWhile isSpace).length = 0 := by
      simp [List.takeWhile_cons, h4]
    unfold scanQuotedWords
    rw [hstart]
    simpa using scanStep_plain (c :: rest).length (c :: rest) 0 [] false
      hplain (by simp)
  · constructor
    · intro h c hc
      have h2 : byteOfRune c = c.toNat := List.map_inj_left.mp h c hc
      unfold byteOfRune at h2
      omega
    · intro h
      refine List.map_congr_left ?_
      intro c hc
      exact Nat.mod_eq_of_lt (h c hc)

/-- Witness for `c10_byte_truncation` at the CJK input `"日本"`
(U+65E5, U+672C): the token bytes are the low bytes 229 and 44, not the
code points. -/
theorem c10_witness :
    scanQuotedWords (chars "日本") true =
      ScanResult.token (chars "日本").length ((chars "日本").map byteOfRune) ∧
    ((chars "日本").map byteOfRune = (chars "日本").map Char.toNat ↔
      ∀ c ∈ chars "日本", c.toNat < 256) :=
  c10_byte_truncation (chars "日本") (by decide) (by decide)

end Jarbas
